import Mathlib

/-!
Verification development for the yagooglesearch `SearchClient`
(`yagooglesearch/__init__.py`), a paginated, rate-limit-aware search
scraping session.

The embedding models:
  * search result elements (Python `str` in plain mode, `dict` records in
    verbose mode) and Python equality between them;
  * the result-extraction and deduplication loop of `results_from_url`;
  * `get_page` with its status-code dispatch (200 / 429 / other), the
    recaptcha-solver invocation on 429, and the managed cool-off retry;
  * the `search_gen` pagination loop with its terminal signals
    (`MAX_RESULTS_REACHED`, `SEARCH_EXHAUSTED`, `HTTP_429_DETECTED`);
  * `get_url` construction with the reserved-parameter check;
  * the cookie merge performed by `request` / `update_cookies`;
  * the consent-banner negotiation of `check_cookie_banner`;
  * the `lang_result` validation in the constructor, and the cool-off
    escalation `http_429_detected`.

HTML parsing and HTTP transport are external collaborators: a fetched page
is abstracted as the list of its anchor elements after
`filter_search_result_urls` (an anchor with `link = none` stands for an
anchor without `href` or one rejected by the filter), and the network is an
oracle list of attempt outcomes.  Side effects that the claims observe
(requests issued, solver invocations, sleeps, the inter-page pacing delay)
are recorded in an event trace.
-/

set_option autoImplicit false

/-- One element of the session's cumulative result sequence.  In plain mode
(`verbose_output = False`) Python appends `str` URLs, in verbose mode it
appends `dict` records with rank, title, description and url; the HTTP 429
sentinel is always the plain string `"HTTP_429_DETECTED"`. -/
inductive Elem where
  | str (s : String)
  | record (rank : Nat) (title : String) (description : String) (url : String)
deriving DecidableEq, Repr

/-- An anchor of a result page, after `filter_search_result_urls`:
`link = none` when the anchor has no `href` or the filter rejected it. -/
structure Anchor where
  link : Option String
  title : String
  description : String
deriving DecidableEq, Repr

/-- One HTTP attempt observed by `get_page`: the response status code, the
anchors parsed from the response body, and whether the external recaptcha
solver would succeed if invoked on this response. -/
structure Attempt where
  status : Nat
  anchors : List Anchor
  solverOk : Bool
deriving DecidableEq, Repr

/-- The sequence of HTTP attempts backing one `results_from_url` call
(later attempts are consumed by the managed-429 retry of `get_page`). -/
structure PageSpec where
  attempts : List Attempt
deriving DecidableEq, Repr

/-- The `SearchClient` configuration fields used by the modelled methods.
`country` is `Option` because the code tests `is not None` (the default is
the empty string, which still appends `cr=&`); `lang_html_ui` is tested for
truthiness, so an empty string behaves like `None`. -/
structure Client where
  verbose_output : Bool
  yagooglesearch_manages_http_429s : Bool
  http_429_cool_off_time_in_minutes : ℚ
  http_429_cool_off_factor : ℚ
  url_home : String
  safe : String
  lang_html_ui : Option String
  lang_result : Option String
  country : Option String
  tbs : String
deriving DecidableEq, Repr

/-- Python `round` to an integer: round half to even (banker's rounding),
on the exact rational value. -/
def roundHalfEven (x : ℚ) : ℤ :=
  let f : ℤ := x.floor
  let frac : ℚ := x - (f : ℚ)
  if frac < 1/2 then f
  else if 1/2 < frac then f + 1
  else if f % 2 = 0 then f else f + 1

/-- Python `round(x, 2)`: round to two decimal places. -/
def pyRound2 (x : ℚ) : ℚ :=
  (roundHalfEven (x * 100) : ℚ) / 100

/-- The `http_429_detected` method: the new cool-off period replaces the
current one with `round(current * factor, 2)`. -/
def http_429_detected (cool factor : ℚ) : ℚ :=
  pyRound2 (cool * factor)

/-- The class attribute `URL_PARAMETERS`, the reserved GET parameter
names. -/
def URL_PARAMETERS : List String :=
  ["btnG", "cr", "hl", "num", "q", "safe", "start", "tbs", "lr"]

/-- The URL built by `get_url` before extra parameters are appended. -/
def urlBeforeExtras (c : Client) (query : String) (start num : Option Nat) : String :=
  c.url_home ++ "/search?q=" ++ query ++ "&safe=" ++ c.safe ++ "&"
    ++ (match c.lang_html_ui with
        | some l => if l == "" then "" else "hl=" ++ l ++ "&"
        | none => "")
    ++ (match c.lang_result with
        | some l => "lr=" ++ l ++ "&"
        | none => "")
    ++ (match c.country with
        | some ctr => "cr=" ++ ctr ++ "&"
        | none => "")
    ++ "filter=0&tbs=" ++ c.tbs
    ++ (match start with
        | none => "&btnG=Google+Search"
        | some s => if s == 0 then "&btnG=Google+Search" else "&start=" ++ toString s)
    ++ (match num with
        | none => ""
        | some n => "&num=" ++ toString n)

/-- The `get_url` method: builds the search URL, raises `ValueError` when an
extra parameter name collides with a reserved built-in parameter (the
reserved names are scanned in `URL_PARAMETERS` order, as the source loop
does), and otherwise appends each extra `key=value` pair verbatim. -/
def get_url (c : Client) (query : String) (start num : Option Nat)
    (extra_params : List (String × String)) : Except String String :=
  match URL_PARAMETERS.find? (fun p => extra_params.any (fun kv => kv.1 == p)) with
  | some p => Except.error ("GET parameter " ++ p ++ " is overlapping with the built-in GET parameter")
  | none =>
      Except.ok (extra_params.foldl (fun u kv => u ++ "&" ++ kv.1 ++ "=" ++ kv.2)
        (urlBeforeExtras c query start num))

/-- Python `str.strip()`: remove leading and trailing whitespace. -/
def pyStrip (s : String) : String :=
  ⟨((s.data.dropWhile Char.isWhitespace).reverse.dropWhile Char.isWhitespace).reverse⟩

/-- Python `str.lower()`: lowercase each character. -/
def pyLower (s : String) : String :=
  ⟨s.data.map Char.toLower⟩

/-- Python membership test `link not in prev_results_ref + results`:
the candidate `link` is a `str`, so it compares equal only to `str`
elements (a `str` is never `==` a `dict` record). -/
def pyMem (link : String) (l : List Elem) : Bool :=
  l.any fun e =>
    match e with
    | Elem.str s => s == link
    | Elem.record _ _ _ _ => false

/-- The element appended by `results_from_url` for an accepted link:
a rank/title/description/url record in verbose mode (title and description
are stripped), the bare URL string otherwise. -/
def mkElem (verbose : Bool) (rank : Nat) (a : Anchor) (link : String) : Elem :=
  if verbose then Elem.record rank (pyStrip a.title) (pyStrip a.description) link
  else Elem.str link

/-- The anchor loop of `results_from_url`: anchors without a usable link are
skipped; a link passing the `not in prev_results_ref + results` test is
appended with rank `len(prev_results_ref) + len(results)`. -/
def extractLoop (verbose : Bool) (prev : List Elem) :
    List Elem → List Anchor → List Elem
  | results, [] => results
  | results, a :: rest =>
      match a.link with
      | none => extractLoop verbose prev results rest
      | some link =>
          if pyMem link (prev ++ results) then
            extractLoop verbose prev results rest
          else
            extractLoop verbose prev
              (results ++ [mkElem verbose (prev.length + results.length) a link]) rest

/-- Observable side effects of the modelled methods: an HTTP request issued
for a result page, a recaptcha-solver invocation, the 429 cool-off sleep
(in minutes), and the inter-page pacing delay of `sleep_against_429`. -/
inductive Ev where
  | fetched
  | solverRun
  | slept (minutes : ℚ)
  | paced
deriving DecidableEq, Repr

/-- Outcome of one `get_page` call: the parsed page body, the
`"HTTP_429_DETECTED"` sentinel string, or a raised exception. -/
inductive GetPageResult where
  | html (anchors : List Anchor)
  | sentinel
  | exception
deriving DecidableEq, Repr

/-- The `get_page` method.  A 200 response yields its body; on a 429 the
recaptcha solver is invoked first (its failure raises), then, if the caller
opted out of automatic 429 handling, the sentinel is returned, else the
client sleeps the current cool-off, escalates it via `http_429_detected`
and retries on the next attempt; any other status code leaves `html = ""`
(no anchors).  An exhausted attempt list stands for a raised transport
error.  The consent negotiation performed on the response before the
status dispatch is modelled separately (`check_cookie_banner`). -/
def get_page (manages : Bool) (factor : ℚ) : ℚ → List Attempt → GetPageResult × ℚ × List Ev
  | cool, [] => (GetPageResult.exception, cool, [Ev.fetched])
  | cool, att :: rest =>
      if att.status == 200 then
        (GetPageResult.html att.anchors, cool, [Ev.fetched])
      else if att.status == 429 then
        if att.solverOk == false then
          (GetPageResult.exception, cool, [Ev.fetched, Ev.solverRun])
        else if manages == false then
          (GetPageResult.sentinel, cool, [Ev.fetched, Ev.solverRun])
        else
          let r := get_page manages factor (http_429_detected cool factor) rest
          (r.1, r.2.1, [Ev.fetched, Ev.solverRun, Ev.slept cool] ++ r.2.2)
      else
        (GetPageResult.html [], cool, [Ev.fetched])

/-- Result of `results_from_url`: its result list, or a propagated
exception. -/
inductive RfuResult where
  | results (elems : List Elem)
  | exception
deriving DecidableEq, Repr

/-- The `results_from_url` method: fetches the page via `get_page`; the
sentinel becomes the one-element list `["HTTP_429_DETECTED"]`; otherwise
the anchor loop runs against `prev_results_ref`. -/
def results_from_url (verbose manages : Bool) (factor : ℚ) (cool : ℚ)
    (prev : List Elem) (attempts : List Attempt) : RfuResult × ℚ × List Ev :=
  match get_page manages factor cool attempts with
  | (GetPageResult.exception, cool2, evs) => (RfuResult.exception, cool2, evs)
  | (GetPageResult.sentinel, cool2, evs) =>
      (RfuResult.results [Elem.str "HTTP_429_DETECTED"], cool2, evs)
  | (GetPageResult.html anchors, cool2, evs) =>
      (RfuResult.results (extractLoop verbose prev [] anchors), cool2, evs)

/-- Terminal signal of a `search_gen` run.  `no_more_pages` is the model
artifact for an oracle with no further pages (the Python loop would fetch
another page); `loop_exit` is the implicit `None` return when the `while`
condition fails; `value_error` is the `ValueError` raised by `get_url`;
`solver_exception` is an exception propagated from `get_page`. -/
inductive Outcome where
  | max_results_reached
  | search_exhausted
  | http_429_detected
  | value_error
  | solver_exception
  | no_more_pages
  | loop_exit
deriving DecidableEq, Repr

/-- The inner `for elem in new_results` loop of `search_gen`: appends and
yields each element, returning early (second component `true`, the
`MAX_RESULTS_REACHED` return) as soon as
`max_result_urls <= len(search_result_list)`. -/
def appendResults (max_result_urls : Nat) : List Elem → List Elem → List Elem × Bool
  | srl, [] => (srl, false)
  | srl, e :: rest =>
      let srl2 := srl ++ [e]
      if max_result_urls ≤ srl2.length then (srl2, true)
      else appendResults max_result_urls srl2 rest

/-- The `while` loop of `search_gen`, driven by the page oracle.  Every
element appended to `search_result_list` is yielded immediately after, so
the accumulated list is exactly the yield sequence.  `sleep_against_429`
always paces here because each modelled page issues a fresh request, and
the kill event is absent (`kill_event = None`). -/
def search_gen_loop (c : Client) (query : String)
    (extra_params : List (String × String)) (max_result_urls num : Nat) :
    List PageSpec → List Elem → Nat → ℚ → List Elem × Outcome × List Ev
  | [], srl, _, _ => (srl, Outcome.no_more_pages, [])
  | page :: rest, srl, start, cool =>
      if srl.length ≤ max_result_urls then
        match get_url c query (some start) (some num) extra_params with
        | Except.error _ => (srl, Outcome.value_error, [])
        | Except.ok _ =>
            match results_from_url c.verbose_output c.yagooglesearch_manages_http_429s
                c.http_429_cool_off_factor cool srl page.attempts with
            | (RfuResult.exception, _, evs) => (srl, Outcome.solver_exception, evs)
            | (RfuResult.results new_results, cool2, evs) =>
                if new_results == [Elem.str "HTTP_429_DETECTED"] then
                  (srl ++ [Elem.str "HTTP_429_DETECTED"], Outcome.http_429_detected, evs)
                else if new_results.isEmpty then
                  (srl, Outcome.search_exhausted, evs)
                else
                  match appendResults max_result_urls srl new_results with
                  | (srl2, true) => (srl2, Outcome.max_results_reached, evs)
                  | (srl2, false) =>
                      let r := search_gen_loop c query extra_params max_result_urls num
                        rest srl2 (start + num) cool2
                      (r.1, r.2.1, evs ++ [Ev.paced] ++ r.2.2)
      else (srl, Outcome.loop_exit, [])

/-- The `search_gen` generator: clamps `num` to 100, resets the per-search
result list, and runs the pagination loop starting from the configured
cool-off period.  Returns the yield sequence, the terminal signal, and the
event trace. -/
def search_gen (c : Client) (query : String) (start num : Nat)
    (extra_params : List (String × String)) (max_result_urls : Nat)
    (pages : List PageSpec) : List Elem × Outcome × List Ev :=
  let num2 := if 100 < num then 100 else num
  search_gen_loop c query extra_params max_result_urls num2 pages [] start
    c.http_429_cool_off_time_in_minutes

/-- Python dict insertion: replace the value of an existing key in place,
otherwise append the pair at the end. -/
def dictInsert : List (String × String) → String → String → List (String × String)
  | [], k, v => [(k, v)]
  | (k₀, v₀) :: rest, k, v =>
      if k₀ == k then (k, v) :: rest else (k₀, v₀) :: dictInsert rest k v

/-- Python `dict.update`: insert the new pairs in order, later writes to the
same key overriding earlier ones. -/
def dictUpdate (d : List (String × String)) (new : List (String × String)) :
    List (String × String) :=
  new.foldl (fun acc kv => dictInsert acc kv.1 kv.2) d

/-- The `update_cookies` method: an empty cookie store is replaced wholesale
by the incoming cookies, a non-empty one is `dict.update`d. -/
def update_cookies (session new : List (String × String)) : List (String × String) :=
  if session.isEmpty then new else dictUpdate session new

/-- The cookie-bearing parts of a `requests` response: the final response's
cookies and the cookies of each redirect-history entry, oldest first. -/
structure RespCookies where
  cookies : List (String × String)
  history : List (List (String × String))
deriving DecidableEq, Repr

/-- The cookie-update step of the `request` method (with
`update_cookies=True`): first the final response's cookies are merged, then
the cookies of each redirect-history entry, in history order. -/
def request_update_cookies (session : List (String × String)) (r : RespCookies) :
    List (String × String) :=
  r.history.foldl (fun acc h => update_cookies acc h) (update_cookies session r.cookies)

/-- The value written last for key `k` by a sequence of cookie writes, if
any (a later write overrides an earlier one). -/
def lastWrite : List (String × String) → String → Option String
  | [], _ => none
  | (k₀, v₀) :: rest, k =>
      Option.or (lastWrite rest k) (if k₀ == k then some v₀ else none)

/-- One child element of a consent form: its tag name, its `type` attribute
(if any), its `value` attribute and its `name` attribute. -/
structure FormChild where
  tag : String
  typ : Option String
  value : String
  inputName : String
deriving DecidableEq, Repr

/-- A form of the response body, identified by its `action` URL. -/
structure Form where
  action : String
  children : List FormChild
deriving DecidableEq, Repr

/-- The response body as seen by `check_cookie_banner`: its forms. -/
structure HtmlDoc where
  forms : List Form
deriving DecidableEq, Repr

/-- The provider's consent-save endpoint for a top-level domain. -/
def consentSaveUrl (tld : String) : String :=
  "https://consent.google." ++ tld ++ "/save"

/-- The `value` attributes of a form's submit-typed children (the Python
list comprehension over `i.children` with `j.get("type") == "submit"`). -/
def submitValues (f : Form) : List String :=
  (f.children.filter (fun j => j.typ == some "submit")).map (fun j => j.value)

/-- The affirmative consent-button labels recognised by the code. -/
def acceptLabels : List String := ["Accept all", "Alle akzeptieren"]

/-- Python `i and i[0] in ["Accept all", "Alle akzeptieren"]`: true when the
button-label list is non-empty and its first label is affirmative. -/
def affirmativeButtons (bs : List String) : Bool :=
  match bs with
  | [] => false
  | b :: _ => acceptLabels.contains b

/-- The hidden input fields of a form, as the POST body
`{name: value}`. -/
def hiddenInputs (f : Form) : List (String × String) :=
  (f.children.filter (fun j => j.tag == "input" && j.typ == some "hidden")).map
    (fun j => (j.inputName, j.value))

/-- Result of `check_cookie_banner`: the response unchanged, or a POST of
the accept form's hidden inputs to its action URL (whose response replaces
the original). -/
inductive BannerResult where
  | unchanged
  | post (action : String) (inputs : List (String × String))
deriving DecidableEq, Repr

/-- The `check_cookie_banner` method.  The outer gate looks for a form whose
action is the hardcoded `https://consent.google.de/save`; only then are the
forms with the configured tld's consent-save action collected, and the
first whose submit-button label is affirmative (Python
`accept.index(True)`) is submitted. -/
def check_cookie_banner (tld : String) (doc : HtmlDoc) : BannerResult :=
  if doc.forms.any (fun f => f.action == consentSaveUrl "de") then
    let cookie_forms := doc.forms.filter (fun f => f.action == consentSaveUrl tld)
    if cookie_forms.isEmpty then BannerResult.unchanged
    else
      let accept := cookie_forms.map (fun f => affirmativeButtons (submitValues f))
      if accept.any (fun b => b) then
        match cookie_forms.get? (accept.findIdx (fun b => b == true)) with
        | some accept_form => BannerResult.post accept_form.action (hiddenInputs accept_form)
        | none => BannerResult.unchanged
      else BannerResult.unchanged
  else BannerResult.unchanged

/-- Modelled from the spec: the repository's bundled `result_languages.txt`
table is not under `src/`; per the spec it is a fixed code table mapping
result-language codes to their display names, validated against with a
fall back to English (`lang_en`) for invalid codes.  A representative
fragment with language-code keys, including the `lang_en` fallback key. -/
def RESULTS_LANGUAGES_DICT : List (String × String) :=
  [("lang_en", "English"), ("lang_de", "German"), ("lang_fr", "French"),
   ("lang_es", "Spanish")]

/-- The `lang_result` argument check of the `SearchClient` constructor:
`None` is kept; otherwise the lowercased code is looked up in the table,
an invalid code is replaced by `"lang_en"` after a logged error, and the
table value for the resulting key becomes the effective result language
(a missing key at this final lookup would raise `KeyError`, modelled as
`Except.error`). -/
def init_lang_result (lang_result : Option String) : Except Unit (Option String) :=
  match lang_result with
  | none => Except.ok none
  | some lr =>
      let lr2 := pyLower lr
      let lr3 := if RESULTS_LANGUAGES_DICT.any (fun kv => kv.1 == lr2) then lr2 else "lang_en"
      match RESULTS_LANGUAGES_DICT.lookup lr3 with
      | some v => Except.ok (some v)
      | none => Except.error ()

/-- The url of a result element (records carry it in their `url` field). -/
def urlOf : Elem → String
  | Elem.str s => s
  | Elem.record _ _ _ u => u

/-- A non-verbose client with the constructor's default settings. -/
def cEx : Client :=
  { verbose_output := false, yagooglesearch_manages_http_429s := true,
    http_429_cool_off_time_in_minutes := 60, http_429_cool_off_factor := 11/10,
    url_home := "https://www.google.com", safe := "off",
    lang_html_ui := none, lang_result := none, country := some "", tbs := "0" }

/-- A verbose-output client, otherwise with default settings. -/
def cVerbose : Client :=
  { verbose_output := true, yagooglesearch_manages_http_429s := true,
    http_429_cool_off_time_in_minutes := 60, http_429_cool_off_factor := 11/10,
    url_home := "https://www.google.com", safe := "off",
    lang_html_ui := none, lang_result := none, country := some "", tbs := "0" }

/-- An anchor whose filtered url occurs twice on the same page. -/
def dupAnchor : Anchor :=
  ⟨some "https://example.com/x", "Example title", "Example description"⟩

/-- A 200 response whose body contains the same result url twice. -/
def dupAttempt : Attempt := ⟨200, [dupAnchor, dupAnchor], true⟩

/-- C1: the claimed url-deduplication fails in verbose output mode.  The
membership test `link not in prev_results_ref + results` compares the
candidate url string against record dicts, which is always false, so a url
occurring twice is appended twice: at the failing input both accepted
entries of the batch, and both elements yielded by `search_gen`, carry the
byte-equal url `https://example.com/x`. -/
theorem c1_verbose_mode_appends_duplicate_urls :
    (results_from_url true true (11/10) 60 [] [dupAttempt]).1
      = RfuResult.results
          [Elem.record 0 "Example title" "Example description" "https://example.com/x",
           Elem.record 1 "Example title" "Example description" "https://example.com/x"]
    ∧ ((search_gen cVerbose "query" 0 10 [] 30 [⟨[dupAttempt]⟩]).1).map urlOf
      = ["https://example.com/x", "https://example.com/x"] :=
  ⟨by decide, by decide⟩

/-- The same duplicated page in plain (non-verbose) mode: there the string
membership test works and the duplicate is rejected. -/
theorem nonverbose_mode_deduplicates :
    (results_from_url false true (11/10) 60 [] [dupAttempt]).1
      = RfuResult.results [Elem.str "https://example.com/x"] :=
  by decide

/-- C5: each `http_429_detected` escalation replaces the cool-off minutes
with the current value times the factor, rounded to two decimals; from 60
minutes with factor 1.1, two successive escalations give 66.0 then 72.6. -/
theorem c5_cool_off_escalation_values :
    http_429_detected 60 (11/10) = 66
    ∧ http_429_detected 66 (11/10) = 72.6
    ∧ http_429_detected (http_429_detected 60 (11/10)) (11/10) = 72.6 := by
  have h1 : http_429_detected 60 (11/10) = 66 := by
    norm_num [http_429_detected, pyRound2, roundHalfEven, Rat.floor]
  have h2 : http_429_detected 66 (11/10) = 72.6 := by
    norm_num [http_429_detected, pyRound2, roundHalfEven, Rat.floor]
  exact ⟨h1, h2, by rw [h1]; exact h2⟩

/-- C8: a `lang_result` code missing from the language table does not make
construction raise: the code falls back to `lang_en` and the effective
result language becomes the table's English entry. -/
theorem c8_invalid_lang_result_falls_back (lr : String)
    (h : RESULTS_LANGUAGES_DICT.any (fun kv => kv.1 == pyLower lr) = false) :
    init_lang_result (some lr) = Except.ok (some "English") := by
  have hif : (if (RESULTS_LANGUAGES_DICT.any (fun kv => kv.1 == pyLower lr)) = true
      then pyLower lr else "lang_en") = "lang_en" := by
    rw [h]; simp
  simp only [init_lang_result, hif]
  rfl

/-- Witness for C8 at the invalid code `"zz"`. -/
theorem c8_invalid_lang_result_falls_back_witness :
    RESULTS_LANGUAGES_DICT.any (fun kv => kv.1 == pyLower "zz") = false
    ∧ init_lang_result (some "zz") = Except.ok (some "English") :=
  ⟨by decide, c8_invalid_lang_result_falls_back "zz" (by decide)⟩

/-- C4 counterexample: the code merges the final response's cookies first
and the redirect-history entries afterwards, so for a cookie name set both
in a history entry and in the final response the history entry's value
survives, not the final response's value as claimed. -/
theorem c4_history_overrides_final_response_counterexample :
    (request_update_cookies [("seed", "1")]
        ⟨[("c", "final")], [[("c", "hist")]]⟩).lookup "c" = some "hist"
    ∧ (some "hist" : Option String) ≠ some "final" :=
  ⟨by decide, by decide⟩

/-- A consent form at the `.com` consent-save endpoint with an affirmative
submit button and one hidden input. -/
def consentFormCom : Form :=
  ⟨"https://consent.google.com/save",
   [⟨"input", some "submit", "Accept all", ""⟩,
    ⟨"input", some "hidden", "consent-value", "consent-name"⟩]⟩

/-- A response body containing only `consentFormCom`. -/
def consentDocCom : HtmlDoc := ⟨[consentFormCom]⟩

/-- C7 counterexample: with `tld = "com"`, a response body containing a
consent form for the configured tld's consent-save endpoint with an
affirmative submit button is returned unchanged, because the outer gate of
`check_cookie_banner` looks only for the hardcoded
`https://consent.google.de/save` action; the claim demands the POST. -/
theorem c7_hardcoded_de_gate_counterexample :
    check_cookie_banner "com" consentDocCom = BannerResult.unchanged
    ∧ consentDocCom.forms.any
        (fun f => f.action == consentSaveUrl "com" && affirmativeButtons (submitValues f)) = true
    ∧ BannerResult.unchanged
        ≠ BannerResult.post consentFormCom.action (hiddenInputs consentFormCom) :=
  ⟨by decide, by decide, by decide⟩

/-- C9 counterexample: on a page whose only response has status 500 the
driver terminates with `SEARCH_EXHAUSTED` immediately, its trace showing no
pacing step, contrary to the claim that pagination continues to the pacing
step before `Exhausted` is produced. -/
theorem c9_no_pacing_before_exhausted_counterexample :
    (search_gen cEx "q" 0 10 [] 30 [⟨[⟨500, [], true⟩]⟩]).2.1 = Outcome.search_exhausted
    ∧ (search_gen cEx "q" 0 10 [] 30 [⟨[⟨500, [], true⟩]⟩]).2.2 = [Ev.fetched]
    ∧ Ev.paced ∉ [Ev.fetched] :=
  ⟨by decide, by decide, by decide⟩

/-- A reserved name occurring among the extra parameters makes `get_url`
raise `ValueError`. -/
lemma get_url_error_of_reserved (c : Client) (q : String) (st nm : Option Nat)
    (extras : List (String × String)) (p : String) (hp : p ∈ URL_PARAMETERS)
    (ha : extras.any (fun kv => kv.1 == p) = true) :
    ∃ msg, get_url c q st nm extras = Except.error msg := by
  unfold get_url
  have hs : (URL_PARAMETERS.find? (fun p => extras.any (fun kv => kv.1 == p))).isSome := by
    rw [List.find?_isSome]
    exact ⟨p, hp, ha⟩
  obtain ⟨p₀, hp₀⟩ := Option.isSome_iff_exists.mp hs
  rw [hp₀]
  exact ⟨_, rfl⟩

/-- Without any reserved name among the extra parameters, `get_url` returns
the built URL with each extra pair appended verbatim. -/
lemma get_url_ok_of_no_reserved (c : Client) (q : String) (st nm : Option Nat)
    (extras : List (String × String)) (h : ∀ kv ∈ extras, kv.1 ∉ URL_PARAMETERS) :
    get_url c q st nm extras
      = Except.ok (extras.foldl (fun u kv => u ++ "&" ++ kv.1 ++ "=" ++ kv.2)
          (urlBeforeExtras c q st nm)) := by
  unfold get_url
  have hn : URL_PARAMETERS.find? (fun p => extras.any (fun kv => kv.1 == p)) = none := by
    rw [List.find?_eq_none]
    intro p hp hany
    obtain ⟨kv, hkv, hbeq⟩ := List.any_eq_true.mp hany
    exact h kv hkv (by rw [beq_iff_eq] at hbeq; rw [hbeq]; exact hp)
  rw [hn]

/-- C6: an extra-parameter mapping containing a reserved name (`btnG, cr,
hl, num, q, safe, start, tbs, lr`) makes `get_url` raise `ValueError`, and
`search_gen` then terminates with that error before any request is issued
(empty yield list and empty event trace); a mapping free of reserved names
yields the built URL with each extra `key=value` pair appended verbatim. -/
theorem c6_reserved_extra_params (c : Client) (q : String) (st nm : Option Nat)
    (extras : List (String × String)) :
    ((∃ p ∈ URL_PARAMETERS, extras.any (fun kv => kv.1 == p) = true) →
        (∃ msg, get_url c q st nm extras = Except.error msg)
        ∧ ∀ (query : String) (start num N : Nat) (page : PageSpec) (rest : List PageSpec),
            search_gen c query start num extras N (page :: rest)
              = ([], Outcome.value_error, []))
    ∧ ((∀ kv ∈ extras, kv.1 ∉ URL_PARAMETERS) →
        get_url c q st nm extras
          = Except.ok (extras.foldl (fun u kv => u ++ "&" ++ kv.1 ++ "=" ++ kv.2)
              (urlBeforeExtras c q st nm))) := by
  constructor
  · rintro ⟨p, hp, ha⟩
    refine ⟨get_url_error_of_reserved c q st nm extras p hp ha, ?_⟩
    intro query start num N page rest
    obtain ⟨msg, hmsg⟩ := get_url_error_of_reserved c query (some start)
      (some (if 100 < num then 100 else num)) extras p hp ha
    simp [search_gen, search_gen_loop, hmsg]
  · exact get_url_ok_of_no_reserved c q st nm extras

/-- Witness for C6: the reserved name `num` as an extra parameter errors
without any fetch; the unreserved `foo` is appended verbatim. -/
theorem c6_reserved_extra_params_witness :
    ((∃ msg, get_url cEx "test" (some 0) (some 10) [("num", "5")] = Except.error msg)
      ∧ ∀ (query : String) (start num N : Nat) (page : PageSpec) (rest : List PageSpec),
          search_gen cEx query start num [("num", "5")] N (page :: rest)
            = ([], Outcome.value_error, []))
    ∧ get_url cEx "test" (some 0) (some 10) [("foo", "bar")]
        = Except.ok ([("foo", "bar")].foldl (fun u kv => u ++ "&" ++ kv.1 ++ "=" ++ kv.2)
            (urlBeforeExtras cEx "test" (some 0) (some 10))) :=
  ⟨(c6_reserved_extra_params cEx "test" (some 0) (some 10) [("num", "5")]).1
      ⟨"num", by decide, by decide⟩,
   (c6_reserved_extra_params cEx "test" (some 0) (some 10) [("foo", "bar")]).2 (by decide)⟩

/-- C9 (amended): a response status that is neither 200 nor 429 makes
`get_page` return the empty body without raising, and `search_gen`
immediately terminates with `SEARCH_EXHAUSTED` for that page — without
reaching the pacing step (no pacing event in the trace). -/
theorem c9_other_status_nonfatal_exhausts (s : Nat) (h200 : (s == 200) = false)
    (h429 : (s == 429) = false) (as : List Anchor) (b : Bool) (m : Bool)
    (factor cool : ℚ) (rest : List Attempt) :
    get_page m factor cool (⟨s, as, b⟩ :: rest) = (GetPageResult.html [], cool, [Ev.fetched])
    ∧ ∀ (c : Client) (query : String) (start num N : Nat)
        (extras : List (String × String)) (morePages : List PageSpec),
        (∀ kv ∈ extras, kv.1 ∉ URL_PARAMETERS) →
        search_gen c query start num extras N (⟨[⟨s, as, b⟩]⟩ :: morePages)
          = ([], Outcome.search_exhausted, [Ev.fetched]) := by
  have hgp : ∀ (m₀ : Bool) (f₀ c₀ : ℚ),
      get_page m₀ f₀ c₀ (⟨s, as, b⟩ :: rest) = (GetPageResult.html [], c₀, [Ev.fetched]) := by
    intro m₀ f₀ c₀
    simp [get_page, h200, h429]
  refine ⟨hgp m factor cool, ?_⟩
  intro c query start num N extras morePages hx
  have hok := get_url_ok_of_no_reserved c query (some start)
    (some (if 100 < num then 100 else num)) extras hx
  have hgp1 : ∀ (m₀ : Bool) (f₀ c₀ : ℚ),
      get_page m₀ f₀ c₀ [(⟨s, as, b⟩ : Attempt)] = (GetPageResult.html [], c₀, [Ev.fetched]) := by
    intro m₀ f₀ c₀
    simp [get_page, h200, h429]
  have hb : ((([] : List Elem)) == [Elem.str "HTTP_429_DETECTED"]) = false := by decide
  simp [search_gen, search_gen_loop, hok, results_from_url, hgp1, extractLoop, hb]

/-- Witness for C9 at a concrete 500-status page. -/
theorem c9_other_status_nonfatal_exhausts_witness :
    get_page true (11/10) 60 [⟨500, [], true⟩] = (GetPageResult.html [], 60, [Ev.fetched])
    ∧ search_gen cEx "w" 0 10 [] 30 [⟨[⟨500, [], true⟩]⟩]
        = ([], Outcome.search_exhausted, [Ev.fetched]) :=
  ⟨(c9_other_status_nonfatal_exhausts 500 (by decide) (by decide) [] true true (11/10) 60 []).1,
   (c9_other_status_nonfatal_exhausts 500 (by decide) (by decide) [] true true (11/10) 60 []).2
      cEx "w" 0 10 30 [] [] (by decide)⟩

/-- C10: on an HTTP 429 response `get_page` invokes the recaptcha solver
before checking `yagooglesearch_manages_http_429s`: with handling disabled
the solver still runs (solver event precedes the sentinel), and a solver
failure raises out of the session — `search_gen` ends with an exception and
yields nothing — instead of returning the `HTTP_429_DETECTED` sentinel. -/
theorem c10_solver_runs_before_429_check (as : List Anchor) (factor cool : ℚ)
    (rest : List Attempt) :
    get_page false factor cool (⟨429, as, true⟩ :: rest)
        = (GetPageResult.sentinel, cool, [Ev.fetched, Ev.solverRun])
    ∧ (∀ m : Bool, get_page m factor cool (⟨429, as, false⟩ :: rest)
        = (GetPageResult.exception, cool, [Ev.fetched, Ev.solverRun]))
    ∧ ∀ (c : Client) (query : String) (start num N : Nat)
        (extras : List (String × String)) (morePages : List PageSpec),
        (∀ kv ∈ extras, kv.1 ∉ URL_PARAMETERS) →
        search_gen c query start num extras N (⟨[⟨429, as, false⟩]⟩ :: morePages)
          = ([], Outcome.solver_exception, [Ev.fetched, Ev.solverRun]) := by
  refine ⟨by simp [get_page], fun m => by cases m <;> simp [get_page], ?_⟩
  intro c query start num N extras morePages hx
  have hok := get_url_ok_of_no_reserved c query (some start)
    (some (if 100 < num then 100 else num)) extras hx
  have hgp1 : ∀ (m₀ : Bool) (f₀ c₀ : ℚ),
      get_page m₀ f₀ c₀ [(⟨429, as, false⟩ : Attempt)]
        = (GetPageResult.exception, c₀, [Ev.fetched, Ev.solverRun]) := by
    intro m₀ f₀ c₀
    cases m₀ <;> simp [get_page]
  simp [search_gen, search_gen_loop, hok, results_from_url, hgp1]

/-- Witness for C10 with a concrete failing-solver 429 page. -/
theorem c10_solver_runs_before_429_check_witness :
    get_page false (11/10) 60 [⟨429, [], true⟩]
        = (GetPageResult.sentinel, 60, [Ev.fetched, Ev.solverRun])
    ∧ search_gen cEx "w" 0 10 [] 30 [⟨[⟨429, [], false⟩]⟩]
        = ([], Outcome.solver_exception, [Ev.fetched, Ev.solverRun]) :=
  ⟨(c10_solver_runs_before_429_check [] (11/10) 60 []).1,
   (c10_solver_runs_before_429_check [] (11/10) 60 []).2.2 cEx "w" 0 10 30 [] [] (by decide)⟩

/-- Dict lookup after a single insertion. -/
lemma lookup_dictInsert (d : List (String × String)) (k k₀ v₀ : String) :
    (dictInsert d k₀ v₀).lookup k = if k == k₀ then some v₀ else d.lookup k := by
  induction d with
  | nil =>
      cases hkk : k == k₀ <;> simp [dictInsert, List.lookup, hkk]
  | cons hd tl ih =>
      obtain ⟨a, b⟩ := hd
      cases hak : a == k₀
      · cases hkk : k == k₀ <;> cases hka : k == a <;>
          first
            | (simp [dictInsert, List.lookup, hak, hka, hkk, ih]; done)
            | (simp only [beq_iff_eq] at hka hkk
               simp only [beq_eq_false_iff_ne] at hak
               exact absurd (hka.symm.trans hkk) hak)
      · have ha : a = k₀ := by simpa [beq_iff_eq] using hak
        subst ha
        cases hkk : k == a <;> simp [dictInsert, List.lookup, hkk]

/-- Dict lookup after a `dict.update`: the new pairs' last write wins,
falling back to the original dict. -/
lemma lookup_dictUpdate (new : List (String × String)) :
    ∀ (d : List (String × String)) (k : String),
      (dictUpdate d new).lookup k = Option.or (lastWrite new k) (d.lookup k) := by
  induction new with
  | nil => intro d k; simp [dictUpdate, lastWrite]
  | cons p rest ih =>
      intro d k
      obtain ⟨k₀, v₀⟩ := p
      have step : dictUpdate d ((k₀, v₀) :: rest) = dictUpdate (dictInsert d k₀ v₀) rest := rfl
      rw [step, ih, lookup_dictInsert, lastWrite, Option.or_assoc]
      by_cases hk : k = k₀
      · simp [hk]
      · have : (k₀ == k) = false := by simp [Ne.symm hk]
        simp [hk, this]

/-- A dict insertion never empties the dict. -/
lemma dictInsert_ne_nil (d : List (String × String)) (k v : String) :
    dictInsert d k v ≠ [] := by
  cases d with
  | nil => simp [dictInsert]
  | cons hd tl =>
      obtain ⟨a, b⟩ := hd
      by_cases h : a = k <;> simp [dictInsert, h]

/-- A `dict.update` of a non-empty dict stays non-empty. -/
lemma dictUpdate_ne_nil (new : List (String × String)) :
    ∀ (d : List (String × String)), d ≠ [] → dictUpdate d new ≠ [] := by
  induction new with
  | nil => intro d hd; exact hd
  | cons p rest ih =>
      intro d _
      exact ih (dictInsert d p.1 p.2) (dictInsert_ne_nil d p.1 p.2)

/-- Appending write streams: the later stream's last write takes
priority. -/
lemma lastWrite_append (a b : List (String × String)) (k : String) :
    lastWrite (a ++ b) k = Option.or (lastWrite b k) (lastWrite a k) := by
  induction a with
  | nil => simp [lastWrite]
  | cons p rest ih =>
      obtain ⟨k₀, v₀⟩ := p
      have h1 : lastWrite (((k₀, v₀) :: rest) ++ b) k
          = Option.or (lastWrite (rest ++ b) k) (if k₀ == k then some v₀ else none) := rfl
      have h2 : lastWrite ((k₀, v₀) :: rest) k
          = Option.or (lastWrite rest k) (if k₀ == k then some v₀ else none) := rfl
      rw [h1, h2, ih, Option.or_assoc]

/-- Folding the redirect-history cookie merges over a non-empty dict:
lookup sees the last write across the flattened history, then the starting
dict. -/
lemma lookup_history_foldl (hs : List (List (String × String))) :
    ∀ (d : List (String × String)), d ≠ [] → ∀ (k : String),
      (hs.foldl (fun acc h => update_cookies acc h) d).lookup k
        = Option.or (lastWrite hs.flatten k) (d.lookup k) := by
  induction hs with
  | nil => intro d _ k; simp [lastWrite]
  | cons h hs ih =>
      intro d hd k
      have hde : d.isEmpty = false := by
        cases d with
        | nil => exact absurd rfl hd
        | cons a tl => rfl
      have hu : update_cookies d h = dictUpdate d h := by
        simp [update_cookies, hde]
      have hne : update_cookies d h ≠ [] := by
        rw [hu]; exact dictUpdate_ne_nil h d hd
      calc ((h :: hs).foldl (fun acc h => update_cookies acc h) d).lookup k
          = (hs.foldl (fun acc h => update_cookies acc h) (update_cookies d h)).lookup k := rfl
        _ = Option.or (lastWrite hs.flatten k) ((update_cookies d h).lookup k) := ih _ hne k
        _ = Option.or (lastWrite hs.flatten k)
              (Option.or (lastWrite h k) (d.lookup k)) := by rw [hu, lookup_dictUpdate]
        _ = Option.or (lastWrite ((h :: hs).flatten) k) (d.lookup k) := by
              rw [List.flatten_cons, lastWrite_append, Option.or_assoc]

/-- C4 (amended): with cookie updating enabled, `request` merges the final
response's cookies into a non-empty session cookie map first and the
redirect-history entries' cookies afterwards (oldest history entry first),
so for each cookie name the priority is: last history entry that sets it,
then the final response, then the prior session value — the final
response's value wins only when no history entry sets the name. -/
theorem c4_cookie_merge_order_amended (s : List (String × String)) (r : RespCookies)
    (hs : s ≠ []) (k : String) :
    (request_update_cookies s r).lookup k
      = Option.or (lastWrite r.history.flatten k)
          (Option.or (lastWrite r.cookies k) (s.lookup k)) := by
  have hse : s.isEmpty = false := by
    cases s with
    | nil => exact absurd rfl hs
    | cons a tl => rfl
  have hu : update_cookies s r.cookies = dictUpdate s r.cookies := by
    simp [update_cookies, hse]
  have hne : update_cookies s r.cookies ≠ [] := by
    rw [hu]; exact dictUpdate_ne_nil r.cookies s hs
  unfold request_update_cookies
  rw [lookup_history_foldl r.history _ hne k, hu, lookup_dictUpdate]

/-- Witness for C4's amended merge-order statement at the counterexample
input. -/
theorem c4_cookie_merge_order_amended_witness :
    ([("seed", "1")] : List (String × String)) ≠ []
    ∧ (request_update_cookies [("seed", "1")]
          ⟨[("c", "final")], [[("c", "hist")]]⟩).lookup "c"
        = Option.or (lastWrite ([[("c", "hist")]] : List (List (String × String))).flatten "c")
            (Option.or (lastWrite [("c", "final")] "c") ([("seed", "1")].lookup "c")) :=
  ⟨by decide,
   c4_cookie_merge_order_amended [("seed", "1")] ⟨[("c", "final")], [[("c", "hist")]]⟩
     (by decide) "c"⟩

/-- Python `list[list_of_flags.index(True)]` over a mapped predicate list is
the first element satisfying the predicate. -/
lemma getElem?_map_findIdx (l : List Form) (p : Form → Bool) :
    l[(l.map p).findIdx (fun b => b)]? = l.find? p := by
  induction l with
  | nil => rfl
  | cons a tl ih =>
      cases hpa : p a
      · simp [List.findIdx_cons, hpa, List.find?, ih]
      · simp [List.findIdx_cons, hpa, List.find?]

/-- C7 (amended): `check_cookie_banner` runs the consent flow only when the
body contains a form whose action is the hardcoded
`https://consent.google.de/save` endpoint (so for other configured tlds a
consent form at the configured tld's endpoint is returned unchanged unless
a `.de` form is also present); when the gate passes, the first form with
the configured tld's consent-save action whose submit-button label is
affirmative is POSTed (its hidden inputs to its action URL), and if no such
form has an affirmative button the response is returned unchanged. -/
theorem c7_consent_banner_amended (tld : String) (doc : HtmlDoc) :
    (doc.forms.any (fun f => f.action == consentSaveUrl "de") = false →
        check_cookie_banner tld doc = BannerResult.unchanged)
    ∧ (doc.forms.any (fun f => f.action == consentSaveUrl "de") = true →
        ((doc.forms.filter (fun f => f.action == consentSaveUrl tld)).find?
              (fun f => affirmativeButtons (submitValues f)) = none →
            check_cookie_banner tld doc = BannerResult.unchanged)
        ∧ ∀ f, (doc.forms.filter (fun f => f.action == consentSaveUrl tld)).find?
              (fun f => affirmativeButtons (submitValues f)) = some f →
            check_cookie_banner tld doc = BannerResult.post f.action (hiddenInputs f)) := by
  constructor
  · intro hg
    simp [check_cookie_banner, hg]
  · intro hg
    constructor
    · intro hnone
      have hany : ((doc.forms.filter (fun f => f.action == consentSaveUrl tld)).map
          (fun f => affirmativeButtons (submitValues f))).any (fun b => b) = false := by
        rw [List.find?_eq_none] at hnone
        rw [List.any_eq_false]
        intro b hb
        obtain ⟨f, hf, rfl⟩ := List.mem_map.mp hb
        exact hnone f hf
      by_cases he : (doc.forms.filter (fun f => f.action == consentSaveUrl tld)).isEmpty
      · simp [check_cookie_banner, hg, he]
      · simp [check_cookie_banner, hg, he, hany]
    · intro f hf
      have hne : (doc.forms.filter (fun f => f.action == consentSaveUrl tld)).isEmpty = false := by
        cases hl : doc.forms.filter (fun f => f.action == consentSaveUrl tld) with
        | nil => rw [hl] at hf; exact absurd hf (by simp)
        | cons a tl => rfl
      have hany : ((doc.forms.filter (fun f => f.action == consentSaveUrl tld)).map
          (fun f => affirmativeButtons (submitValues f))).any (fun b => b) = true := by
        rw [List.any_eq_true]
        exact ⟨affirmativeButtons (submitValues f),
          List.mem_map.mpr ⟨f, List.mem_of_find?_eq_some hf, rfl⟩,
          by simpa using List.find?_some hf⟩
      have hget := getElem?_map_findIdx
        (doc.forms.filter (fun f => f.action == consentSaveUrl tld))
        (fun f => affirmativeButtons (submitValues f))
      rw [hf] at hget
      simp [check_cookie_banner, hg, hne, hany, hget]

/-- A consent form at the `.de` consent-save endpoint with an affirmative
submit button and one hidden input. -/
def consentFormDe : Form :=
  ⟨"https://consent.google.de/save",
   [⟨"input", some "submit", "Alle akzeptieren", ""⟩,
    ⟨"input", some "hidden", "consent-value", "consent-name"⟩]⟩

/-- A response body containing only `consentFormDe`. -/
def consentDocDe : HtmlDoc := ⟨[consentFormDe]⟩

/-- Witness for C7's amended statement: with `tld = "de"` the affirmative
consent form is POSTed. -/
theorem c7_consent_banner_amended_witness :
    consentDocDe.forms.any (fun f => f.action == consentSaveUrl "de") = true
    ∧ (consentDocDe.forms.filter (fun f => f.action == consentSaveUrl "de")).find?
        (fun f => affirmativeButtons (submitValues f)) = some consentFormDe
    ∧ check_cookie_banner "de" consentDocDe
        = BannerResult.post consentFormDe.action (hiddenInputs consentFormDe) :=
  ⟨by decide, by decide,
   ((c7_consent_banner_amended "de" consentDocDe).2 (by decide)).2 consentFormDe (by decide)⟩

/-- Every record element of `l` carries rank `off + (its index in l)`. -/
def RanksFrom (off : Nat) (l : List Elem) : Prop :=
  ∀ (i : Nat) (h : i < l.length) (r : Nat) (t d u : String),
    l[i] = Elem.record r t d u → r = off + i

/-- The empty list trivially satisfies `RanksFrom`. -/
lemma ranksFrom_nil (off : Nat) : RanksFrom off [] := by
  intro i hi
  simp at hi

/-- Gluing two rank-correct segments. -/
lemma ranksFrom_append (off : Nat) (l l₂ : List Elem) (h1 : RanksFrom off l)
    (h2 : RanksFrom (off + l.length) l₂) : RanksFrom off (l ++ l₂) := by
  intro i hi r t d u hget
  by_cases hl : i < l.length
  · have he : (l ++ l₂)[i] = l[i] := List.getElem_append_left hl
    exact h1 i hl r t d u (he ▸ hget)
  · have hge : l.length ≤ i := Nat.le_of_not_lt hl
    have hi2 : i - l.length < l₂.length := by
      have := List.length_append l l₂ ▸ hi
      omega
    have he : (l ++ l₂)[i] = l₂[i - l.length] := List.getElem_append_right hge
    have := h2 (i - l.length) hi2 r t d u (he ▸ hget)
    omega

/-- The results component of `results_from_url` satisfies `RanksFrom` at
offset `prev.length`: the sentinel list carries no record, and the anchor
loop assigns each accepted record the rank
`len(prev_results_ref) + len(results)`. -/
lemma ranksFrom_singleton_mkElem (verbose : Bool) (off : Nat) (a : Anchor) (link : String) :
    RanksFrom off [mkElem verbose off a link] := by
  intro i hi r t d u hget
  have hi0 : i = 0 := by simpa using hi
  subst hi0
  cases hv : verbose <;> simp [mkElem, hv] at hget
  omega

/-- A lone non-record element satisfies `RanksFrom` vacuously. -/
lemma ranksFrom_singleton_str (off : Nat) (s : String) :
    RanksFrom off [Elem.str s] := by
  intro i hi r t d u hget
  have hi0 : i = 0 := by simpa using hi
  subst hi0
  simp at hget

/-- The anchor loop preserves rank-correctness of the batch being built. -/
lemma extractLoop_ranks (verbose : Bool) (prev : List Elem) :
    ∀ (anchors : List Anchor) (results : List Elem),
      RanksFrom prev.length results →
      RanksFrom prev.length (extractLoop verbose prev results anchors) := by
  intro anchors
  induction anchors with
  | nil => intro results h; exact h
  | cons a rest ih =>
      intro results h
      rw [extractLoop]
      split
      · exact ih results h
      · next link heq =>
          by_cases hm : pyMem link (prev ++ results) = true
          · rw [if_pos hm]
            exact ih results h
          · rw [if_neg hm]
            apply ih
            apply ranksFrom_append prev.length results _ h
            have hone := ranksFrom_singleton_mkElem verbose (prev.length + results.length) a link
            intro i hi r t d u hget
            have hr := hone i hi r t d u hget
            omega

/-- A `results_from_url` result list is rank-correct at offset
`prev.length`. -/
lemma results_from_url_ranks (v m : Bool) (f cool : ℚ) (prev : List Elem)
    (attempts : List Attempt) (new : List Elem) (cool2 : ℚ) (evs : List Ev)
    (h : results_from_url v m f cool prev attempts = (RfuResult.results new, cool2, evs)) :
    RanksFrom prev.length new := by
  unfold results_from_url at h
  rcases hgp : get_page m f cool attempts with ⟨gpr, c2, e2⟩
  rw [hgp] at h
  cases gpr with
  | exception => simp at h
  | sentinel =>
      have hnew : new = [Elem.str "HTTP_429_DETECTED"] := by
        have := congrArg Prod.fst h
        simpa using this.symm
      rw [hnew]
      exact ranksFrom_singleton_str prev.length _
  | html anchors =>
      have hnew : new = extractLoop v prev [] anchors := by
        have := congrArg Prod.fst h
        simpa using this.symm
      rw [hnew]
      exact extractLoop_ranks v prev anchors [] (ranksFrom_nil _)

/-- The yield-and-check loop preserves rank-correctness. -/
lemma appendResults_ranks (N : Nat) :
    ∀ (l srl : List Elem), RanksFrom 0 srl → RanksFrom srl.length l →
      RanksFrom 0 (appendResults N srl l).1 := by
  intro l
  induction l with
  | nil => intro srl h _; exact h
  | cons e rest ih =>
      intro srl h hl
      have h2 : RanksFrom 0 (srl ++ [e]) := by
        apply ranksFrom_append 0 srl [e] h
        intro i hi r t d u hget
        have hi0 : i = 0 := by simpa using hi
        subst hi0
        have := hl 0 (by simp) r t d u (by simpa using hget)
        omega
      by_cases hc : N ≤ (srl ++ [e]).length
      · simp only [appendResults, if_pos hc]
        exact h2
      · simp only [appendResults, if_neg hc]
        apply ih (srl ++ [e]) h2
        intro i hi r t d u hget
        have := hl (i + 1) (by simpa using Nat.succ_lt_succ hi) r t d u (by simpa using hget)
        have hlen : (srl ++ [e]).length = srl.length + 1 := by simp
        rw [hlen]
        omega

/-- The pagination loop preserves rank-correctness of the accumulated
yield sequence. -/
lemma search_gen_loop_ranks (c : Client) (query : String)
    (extras : List (String × String)) (maxr num : Nat) :
    ∀ (pages : List PageSpec) (srl : List Elem) (start : Nat) (cool : ℚ),
      RanksFrom 0 srl →
      RanksFrom 0 (search_gen_loop c query extras maxr num pages srl start cool).1 := by
  intro pages
  induction pages with
  | nil => intro srl start cool h; exact h
  | cons page rest ih =>
      intro srl start cool h
      rw [search_gen_loop]
      by_cases hw : srl.length ≤ maxr
      · rw [if_pos hw]
        split
        · exact h
        · split
          · exact h
          · next new_results cool2 evs heq2 =>
              have hnewranks : RanksFrom srl.length new_results :=
                results_from_url_ranks _ _ _ _ _ _ _ _ _ heq2
              by_cases hbe : (new_results == [Elem.str "HTTP_429_DETECTED"]) = true
              · rw [if_pos hbe]
                exact ranksFrom_append 0 srl [Elem.str "HTTP_429_DETECTED"] h
                  (ranksFrom_singleton_str _ _)
              · rw [if_neg hbe]
                by_cases hie : new_results.isEmpty = true
                · rw [if_pos hie]
                  exact h
                · rw [if_neg hie]
                  split
                  · next srl2 heq3 =>
                      have hres := appendResults_ranks maxr new_results srl h hnewranks
                      rw [heq3] at hres
                      exact hres
                  · next srl2 heq3 =>
                      have hres := appendResults_ranks maxr new_results srl h hnewranks
                      rw [heq3] at hres
                      exact ih srl2 (start + num) cool2 hres
      · rw [if_neg hw]
        exact h

/-- C3: in verbose output mode the rank fields of the results yielded by
`search_gen` are 0, 1, 2, ... in yield order: every yielded record's rank
equals its 0-based position in the yield sequence (assigned at append time
as the count of all results found so far), so consecutive ranks differ by
exactly one and no rank is assigned twice within a search. -/
theorem c3_ranks_consecutive (c : Client) (_hv : c.verbose_output = true)
    (query : String) (start num : Nat) (extras : List (String × String))
    (N : Nat) (pages : List PageSpec) :
    ∀ (i : Nat) (h : i < (search_gen c query start num extras N pages).1.length)
      (r : Nat) (t d u : String),
      (search_gen c query start num extras N pages).1[i] = Elem.record r t d u → r = i := by
  intro i h r t d u hget
  have hloop := search_gen_loop_ranks c query extras N (if 100 < num then 100 else num)
    pages [] start c.http_429_cool_off_time_in_minutes (ranksFrom_nil 0)
  have := hloop i h r t d u hget
  omega

/-- Witness for C3: a verbose run over the duplicated page yields two
records whose ranks equal their positions. -/
theorem c3_ranks_consecutive_witness :
    cVerbose.verbose_output = true
    ∧ ∀ (i : Nat) (h : i < (search_gen cVerbose "query" 0 10 [] 30 [⟨[dupAttempt]⟩]).1.length)
        (r : Nat) (t d u : String),
        (search_gen cVerbose "query" 0 10 [] 30 [⟨[dupAttempt]⟩]).1[i]
          = Elem.record r t d u → r = i :=
  ⟨rfl, c3_ranks_consecutive cVerbose rfl "query" 0 10 [] 30 [⟨[dupAttempt]⟩]⟩

/-- An element built from an anchor link is never the sentinel string
unless the link itself is that string. -/
lemma mkElem_ne_sentinel (verbose : Bool) (n : Nat) (a : Anchor) (link : String)
    (h : link ≠ "HTTP_429_DETECTED") :
    mkElem verbose n a link ≠ Elem.str "HTTP_429_DETECTED" := by
  cases hv : verbose <;> simp [mkElem, hv]
  exact h

/-- Every element produced by the anchor loop is either from the starting
batch or built from one of the anchors. -/
lemma mem_extractLoop (verbose : Bool) (prev : List Elem) :
    ∀ (anchors : List Anchor) (results : List Elem) (e : Elem),
      e ∈ extractLoop verbose prev results anchors →
      e ∈ results ∨ ∃ a ∈ anchors, ∃ link n, a.link = some link ∧ e = mkElem verbose n a link := by
  intro anchors
  induction anchors with
  | nil => intro results e he; exact Or.inl he
  | cons a rest ih =>
      intro results e he
      rw [extractLoop] at he
      split at he
      · rcases ih results e he with h0 | ⟨a', ha', link', n, hl, hm⟩
        · exact Or.inl h0
        · exact Or.inr ⟨a', List.mem_cons_of_mem _ ha', link', n, hl, hm⟩
      · next link heq =>
          split at he
          · rcases ih results e he with h0 | ⟨a', ha', link', n, hl, hm⟩
            · exact Or.inl h0
            · exact Or.inr ⟨a', List.mem_cons_of_mem _ ha', link', n, hl, hm⟩
          · rcases ih _ e he with h0 | ⟨a', ha', link', n, hl, hm⟩
            · rcases List.mem_append.mp h0 with h1 | h1
              · exact Or.inl h1
              · have he0 : e = mkElem verbose (prev.length + results.length) a link := by
                  simpa using h1
                exact Or.inr ⟨a, List.mem_cons_self a rest, link,
                  prev.length + results.length, heq, he0⟩
            · exact Or.inr ⟨a', List.mem_cons_of_mem _ ha', link', n, hl, hm⟩

/-- The anchors of an html body returned by `get_page` come from one of the
attempts (or the body is empty). -/
lemma get_page_html_anchors (m : Bool) (f : ℚ) :
    ∀ (attempts : List Attempt) (cool : ℚ) (anchors : List Anchor) (c2 : ℚ) (evs : List Ev),
      get_page m f cool attempts = (GetPageResult.html anchors, c2, evs) →
      anchors = [] ∨ ∃ att ∈ attempts, anchors = att.anchors := by
  intro attempts
  induction attempts with
  | nil =>
      intro cool anchors c2 evs h
      rw [get_page] at h
      simp at h
  | cons att rest ih =>
      intro cool anchors c2 evs h
      rw [get_page] at h
      split at h
      · have : att.anchors = anchors := by
          have := congrArg Prod.fst h
          simpa using this
        exact Or.inr ⟨att, List.mem_cons_self att rest, this.symm⟩
      · split at h
        · split at h
          · simp at h
          · split at h
            · simp at h
            · rcases hr : get_page m f (http_429_detected cool f) rest with ⟨r1, r2, r3⟩
              rw [hr] at h
              have hr1 : r1 = GetPageResult.html anchors := by
                have := congrArg Prod.fst h
                simpa using this
              have hr2 : r2 = c2 := by
                have := congrArg (fun t => t.2.1) h
                simpa using this
              rcases ih (http_429_detected cool f) anchors r2 r3
                  (by rw [hr, hr1, hr2]) with h0 | ⟨att', ha', hm⟩
              · exact Or.inl h0
              · exact Or.inr ⟨att', List.mem_cons_of_mem _ ha', hm⟩
        · have : anchors = [] := by
            have := congrArg Prod.fst h
            simpa using this.symm
          exact Or.inl this

/-- When the result list of `results_from_url` is not the sentinel list and
no attempt's anchors carry the sentinel string as a link, none of its
elements is the sentinel string. -/
lemma results_from_url_no_sentinel (v m : Bool) (f cool : ℚ) (prev : List Elem)
    (attempts : List Attempt)
    (hatt : ∀ att ∈ attempts, ∀ a ∈ att.anchors, a.link ≠ some "HTTP_429_DETECTED")
    (new : List Elem) (cool2 : ℚ) (evs : List Ev)
    (h : results_from_url v m f cool prev attempts = (RfuResult.results new, cool2, evs))
    (hne : (new == [Elem.str "HTTP_429_DETECTED"]) = false) :
    ∀ e ∈ new, e ≠ Elem.str "HTTP_429_DETECTED" := by
  unfold results_from_url at h
  rcases hgp : get_page m f cool attempts with ⟨gpr, c2, e2⟩
  rw [hgp] at h
  cases gpr with
  | exception => simp at h
  | sentinel =>
      have hs : new = [Elem.str "HTTP_429_DETECTED"] := by
        have := congrArg Prod.fst h
        simpa using this.symm
      rw [hs] at hne
      simp at hne
  | html anchors =>
      have hnew : new = extractLoop v prev [] anchors := by
        have := congrArg Prod.fst h
        simpa using this.symm
      rw [hnew]
      intro e he
      rcases mem_extractLoop v prev anchors [] e he with h0 | ⟨a, ha, link, n, hl, hm⟩
      · simp at h0
      · rcases get_page_html_anchors m f attempts cool anchors c2 e2 hgp with h1 | ⟨att, hattm, h1⟩
        · rw [h1] at ha; simp at ha
        · rw [h1] at ha
          rw [hm]
          apply mkElem_ne_sentinel
          intro hlink
          exact hatt att hattm a ha (by rw [hl, hlink])

/-- The number of genuine results in a yield sequence (everything except
the sentinel string). -/
def resultCount (l : List Elem) : Nat :=
  (l.filter (fun e => !(e == Elem.str "HTTP_429_DETECTED"))).length

/-- With no sentinel present, `resultCount` is the list length. -/
lemma resultCount_eq_length (l : List Elem) (h : ∀ e ∈ l, e ≠ Elem.str "HTTP_429_DETECTED") :
    resultCount l = l.length := by
  unfold resultCount
  rw [List.filter_eq_self.mpr]
  intro e he
  simpa using h e he

/-- Appending the sentinel does not change the result count. -/
lemma resultCount_append_sentinel (l : List Elem) :
    resultCount (l ++ [Elem.str "HTTP_429_DETECTED"]) = resultCount l := by
  unfold resultCount
  rw [List.filter_append]
  simp

/-- Length and membership behaviour of the yield-and-check loop when the
accumulated list is still below the cap. -/
lemma appendResults_len (N : Nat) :
    ∀ (l srl : List Elem), srl.length < N →
      ((appendResults N srl l).2 = true → (appendResults N srl l).1.length = N)
      ∧ ((appendResults N srl l).2 = false → (appendResults N srl l).1.length < N)
      ∧ ∀ e ∈ (appendResults N srl l).1, e ∈ srl ∨ e ∈ l := by
  intro l
  induction l with
  | nil =>
      intro srl h
      refine ⟨?_, ?_, ?_⟩
      · intro hx
        simp [appendResults] at hx
      · intro _
        simpa [appendResults] using h
      · intro e he
        exact Or.inl (by simpa [appendResults] using he)
  | cons e0 rest ih =>
      intro srl h
      have hsplit : appendResults N srl (e0 :: rest)
          = if N ≤ srl.length + 1 then (srl ++ [e0], true)
            else appendResults N (srl ++ [e0]) rest := by
        simp [appendResults]
      by_cases hc : N ≤ srl.length + 1
      · have hlen : (srl ++ [e0]).length = N := by
          simp
          omega
        refine ⟨?_, ?_, ?_⟩
        · intro _
          rw [hsplit, if_pos hc]
          exact hlen
        · intro hx
          rw [hsplit, if_pos hc] at hx
          simp at hx
        · intro e he
          rw [hsplit, if_pos hc] at he
          rcases List.mem_append.mp he with h1 | h1
          · exact Or.inl h1
          · exact Or.inr (by rw [List.mem_singleton.mp h1]; exact List.mem_cons_self e0 rest)
      · have h2 : (srl ++ [e0]).length < N := by
          simp
          omega
        obtain ⟨c1, c2, c3⟩ := ih (srl ++ [e0]) h2
        refine ⟨?_, ?_, ?_⟩
        · intro hx
          rw [hsplit, if_neg hc] at hx ⊢
          exact c1 hx
        · intro hx
          rw [hsplit, if_neg hc] at hx ⊢
          exact c2 hx
        · intro e he
          rw [hsplit, if_neg hc] at he
          rcases c3 e he with h1 | h1
          · rcases List.mem_append.mp h1 with h3 | h3
            · exact Or.inl h3
            · exact Or.inr (by rw [List.mem_singleton.mp h3]; exact List.mem_cons_self e0 rest)
          · exact Or.inr (List.mem_cons_of_mem _ h1)

/-- The pagination loop keeps the genuine-result count at or below the cap,
and reports `MAX_RESULTS_REACHED` exactly when the count equals the cap. -/
lemma search_gen_loop_cap (c : Client) (query : String) (extras : List (String × String))
    (num N : Nat) :
    ∀ (pages : List PageSpec),
      (∀ p ∈ pages, ∀ att ∈ p.attempts, ∀ a ∈ att.anchors, a.link ≠ some "HTTP_429_DETECTED") →
      ∀ (srl : List Elem) (start : Nat) (cool : ℚ),
        srl.length < N → (∀ e ∈ srl, e ≠ Elem.str "HTTP_429_DETECTED") →
        resultCount (search_gen_loop c query extras N num pages srl start cool).1 ≤ N
        ∧ ((search_gen_loop c query extras N num pages srl start cool).2.1
              = Outcome.max_results_reached
            ↔ resultCount (search_gen_loop c query extras N num pages srl start cool).1 = N) := by
  intro pages
  induction pages with
  | nil =>
      intro _ srl start cool hlen hsent
      rw [search_gen_loop]
      show resultCount srl ≤ N
        ∧ (Outcome.no_more_pages = Outcome.max_results_reached ↔ resultCount srl = N)
      rw [resultCount_eq_length srl hsent]
      exact ⟨Nat.le_of_lt hlen,
        ⟨fun hX => absurd hX (by simp), fun h2 => absurd h2 (Nat.ne_of_lt hlen)⟩⟩
  | cons page rest ih =>
      intro hlinks srl start cool hlen hsent
      have hlp : ∀ att ∈ page.attempts, ∀ a ∈ att.anchors, a.link ≠ some "HTTP_429_DETECTED" :=
        hlinks page (List.mem_cons_self page rest)
      have hlr : ∀ p ∈ rest, ∀ att ∈ p.attempts, ∀ a ∈ att.anchors,
          a.link ≠ some "HTTP_429_DETECTED" :=
        fun p hp => hlinks p (List.mem_cons_of_mem _ hp)
      rw [search_gen_loop, if_pos (Nat.le_of_lt hlen)]
      split
      · show resultCount srl ≤ N
          ∧ (Outcome.value_error = Outcome.max_results_reached ↔ resultCount srl = N)
        rw [resultCount_eq_length srl hsent]
        exact ⟨Nat.le_of_lt hlen,
          ⟨fun hX => absurd hX (by simp), fun h2 => absurd h2 (Nat.ne_of_lt hlen)⟩⟩
      · split
        · next cool2 evs heq2 =>
            show resultCount srl ≤ N
              ∧ (Outcome.solver_exception = Outcome.max_results_reached ↔ resultCount srl = N)
            rw [resultCount_eq_length srl hsent]
            exact ⟨Nat.le_of_lt hlen,
              ⟨fun hX => absurd hX (by simp), fun h2 => absurd h2 (Nat.ne_of_lt hlen)⟩⟩
        · next new_results cool2 evs heq2 =>
            by_cases hbe : (new_results == [Elem.str "HTTP_429_DETECTED"]) = true
            · rw [if_pos hbe]
              show resultCount (srl ++ [Elem.str "HTTP_429_DETECTED"]) ≤ N
                ∧ (Outcome.http_429_detected = Outcome.max_results_reached
                    ↔ resultCount (srl ++ [Elem.str "HTTP_429_DETECTED"]) = N)
              rw [resultCount_append_sentinel, resultCount_eq_length srl hsent]
              exact ⟨Nat.le_of_lt hlen,
                ⟨fun hX => absurd hX (by simp), fun h2 => absurd h2 (Nat.ne_of_lt hlen)⟩⟩
            · rw [if_neg hbe]
              by_cases hie : new_results.isEmpty = true
              · rw [if_pos hie]
                show resultCount srl ≤ N
                  ∧ (Outcome.search_exhausted = Outcome.max_results_reached
                      ↔ resultCount srl = N)
                rw [resultCount_eq_length srl hsent]
                exact ⟨Nat.le_of_lt hlen,
                  ⟨fun hX => absurd hX (by simp), fun h2 => absurd h2 (Nat.ne_of_lt hlen)⟩⟩
              · rw [if_neg hie]
                have hnews : ∀ e ∈ new_results, e ≠ Elem.str "HTTP_429_DETECTED" :=
                  results_from_url_no_sentinel c.verbose_output
                    c.yagooglesearch_manages_http_429s c.http_429_cool_off_factor cool srl
                    page.attempts hlp new_results cool2 evs heq2
                    (Bool.eq_false_iff.mpr hbe)
                obtain ⟨cap1, cap2, cap3⟩ := appendResults_len N new_results srl hlen
                split
                · next srl2 heq3 =>
                    rw [heq3] at cap1 cap3
                    have hlen2 : srl2.length = N := cap1 rfl
                    have hsent2 : ∀ e ∈ srl2, e ≠ Elem.str "HTTP_429_DETECTED" := by
                      intro e he
                      rcases cap3 e he with h1 | h1
                      · exact hsent e h1
                      · exact hnews e h1
                    show resultCount srl2 ≤ N
                      ∧ (Outcome.max_results_reached = Outcome.max_results_reached
                          ↔ resultCount srl2 = N)
                    rw [resultCount_eq_length srl2 hsent2, hlen2]
                    exact ⟨Nat.le_refl N, by simp⟩
                · next srl2 heq3 =>
                    rw [heq3] at cap2 cap3
                    have hlen2 : srl2.length < N := cap2 rfl
                    have hsent2 : ∀ e ∈ srl2, e ≠ Elem.str "HTTP_429_DETECTED" := by
                      intro e he
                      rcases cap3 e he with h1 | h1
                      · exact hsent e h1
                      · exact hnews e h1
                    exact ih hlr srl2 (start + num) cool2 hlen2 hsent2

/-- No anchor of any attempt of any page resolves to the sentinel string
(the sentinel is reserved as an in-band signal; the URL filter would never
let it through). -/
def noSentinelLinks (pages : List PageSpec) : Prop :=
  ∀ p ∈ pages, ∀ att ∈ p.attempts, ∀ a ∈ att.anchors, a.link ≠ some "HTTP_429_DETECTED"

/-- C2: with `max_result_urls = N` (N positive), `search_gen` yields at
most N results, and it terminates with `MAX_RESULTS_REACHED` exactly when
the Nth unique result is yielded: the cap signal is returned if and only if
the yield sequence holds exactly N results, and the driver stops right
after the yield that crossed the threshold. -/
theorem c2_max_result_urls_cap (c : Client) (query : String) (start num : Nat)
    (extras : List (String × String)) (N : Nat) (pages : List PageSpec)
    (hN : 1 ≤ N) (hlinks : noSentinelLinks pages) :
    resultCount (search_gen c query start num extras N pages).1 ≤ N
    ∧ ((search_gen c query start num extras N pages).2.1 = Outcome.max_results_reached
        ↔ resultCount (search_gen c query start num extras N pages).1 = N) := by
  have h0 : ([] : List Elem).length < N := hN
  have hs : ∀ e ∈ ([] : List Elem), e ≠ Elem.str "HTTP_429_DETECTED" := by
    intro e he
    simp at he
  exact search_gen_loop_cap c query extras (if 100 < num then 100 else num) N pages hlinks
    [] start c.http_429_cool_off_time_in_minutes h0 hs

/-- A one-result 200 page. -/
def onePage : PageSpec := ⟨[⟨200, [⟨some "https://example.com/a", "", ""⟩], true⟩]⟩

/-- Witness for C2: with `max_result_urls = 1` and a one-result page the
driver caps at exactly one yielded result. -/
theorem c2_max_result_urls_cap_witness :
    (1 ≤ 1 ∧ noSentinelLinks [onePage])
    ∧ (resultCount (search_gen cEx "q" 0 10 [] 1 [onePage]).1 ≤ 1
        ∧ ((search_gen cEx "q" 0 10 [] 1 [onePage]).2.1 = Outcome.max_results_reached
            ↔ resultCount (search_gen cEx "q" 0 10 [] 1 [onePage]).1 = 1)) :=
  ⟨⟨by decide, by unfold noSentinelLinks; decide⟩,
   c2_max_result_urls_cap cEx "q" 0 10 [] 1 [onePage] (by decide)
     (by unfold noSentinelLinks; decide)⟩
